import Mathlib

/-!
Shallow embedding of the AgentFlow Agent Orchestration Runtime core
(`internal/aor/control_plane.go`: the control plane and the worker).

The Run Store is modelled as a list of rows; each SQL statement of the
source becomes a pure function from the store to the new store (plus the
rows-affected count where the source reads it).  Fallible I/O (DB exec,
JetStream publish, JSON decode) is modelled by explicit success flags, and
the executor plug-in by an oracle giving the outcome of each attempt.
-/

namespace AgentFlow

/-- Status of a `workflow_run` row. -/
inductive RunStatus where
  | queued
  | running
  | succeeded
  | failed
  | canceled
  deriving Repr, DecidableEq

/-- Status of a `step_run` row. -/
inductive StepStatus where
  | pending
  | ready
  | running
  | succeeded
  | failed
  | canceled
  deriving Repr, DecidableEq

/-- The columns of `workflow_run` that `CancelWorkflowRun` touches. -/
structure WorkflowRunRow where
  id : Nat
  status : RunStatus
  deriving Repr, DecidableEq

/-- The `status IN ('queued', 'running')` condition of the cancel UPDATE. -/
def isCancellable (s : RunStatus) : Bool :=
  match s with
  | RunStatus.queued => true
  | RunStatus.running => true
  | _ => false

/-- The WHERE clause `id = $1 AND status IN ('queued', 'running')`. -/
def cancelMatches (runID : Nat) (r : WorkflowRunRow) : Bool :=
  decide (r.id = runID) && isCancellable r.status

/-- Outcome of `CancelWorkflowRun`: the store after the call, the returned
error (`none` = nil error), and whether a cancel signal reached the
`agentflow.signals` subject. -/
structure CancelOutcome where
  store : List WorkflowRunRow
  error : Option String
  signalPublished : Bool
  deriving Repr, DecidableEq

/-- Embeds `ControlPlane.CancelWorkflowRun`: runs
`UPDATE workflow_run SET status = 'canceled' WHERE id = $1 AND status IN
('queued', 'running')`; if zero rows were affected it returns an error;
otherwise it publishes the cancel signal, and a publish failure
(`publishOk = false`) is only logged, never returned. -/
def cancelWorkflowRun (store : List WorkflowRunRow) (runID : Nat)
    (publishOk : Bool) : CancelOutcome :=
  let updated := store.map fun r =>
    if cancelMatches runID r then { r with status := RunStatus.canceled } else r
  let rowsAffected := (store.filter (cancelMatches runID)).length
  if rowsAffected = 0 then
    { store := updated
      error := some "workflow run not found or not in cancellable state"
      signalPublished := false }
  else
    { store := updated, error := none, signalPublished := publishOk }

theorem isCancellable_iff (s : RunStatus) :
    isCancellable s = true ↔ s = RunStatus.queued ∨ s = RunStatus.running := by
  cases s <;> simp [isCancellable]

theorem cancelMatches_iff (runID : Nat) (r : WorkflowRunRow) :
    cancelMatches runID r = true ↔
      r.id = runID ∧ (r.status = RunStatus.queued ∨ r.status = RunStatus.running) := by
  simp [cancelMatches, isCancellable_iff]

theorem cancelWorkflowRun_error_none_iff (store : List WorkflowRunRow)
    (runID : Nat) (publishOk : Bool) :
    (cancelWorkflowRun store runID publishOk).error = none ↔
      ∃ r ∈ store, r.id = runID ∧
        (r.status = RunStatus.queued ∨ r.status = RunStatus.running) := by
  unfold cancelWorkflowRun
  by_cases h : (store.filter (cancelMatches runID)).length = 0
  · simp only [h, if_pos]
    simp only [List.length_eq_zero, List.filter_eq_nil_iff] at h
    simp only [reduceCtorEq, false_iff]
    rintro ⟨r, hr, hid, hst⟩
    exact h r hr ((cancelMatches_iff runID r).mpr ⟨hid, hst⟩)
  · simp only [h, if_neg, not_false_iff]
    simp only [true_iff]
    rcases List.length_pos.mp (Nat.pos_of_ne_zero h) with hne
    rcases List.exists_mem_of_ne_nil _ hne with ⟨r, hr⟩
    rcases List.mem_filter.mp hr with ⟨hmem, hmatch⟩
    rcases (cancelMatches_iff runID r).mp hmatch with ⟨hid, hst⟩
    exact ⟨r, hmem, hid, hst⟩

theorem cancelWorkflowRun_success_cancels (store : List WorkflowRunRow)
    (runID : Nat) (publishOk : Bool)
    (h : (cancelWorkflowRun store runID publishOk).error = none) :
    ∃ r ∈ (cancelWorkflowRun store runID publishOk).store,
      r.id = runID ∧ r.status = RunStatus.canceled := by
  rcases (cancelWorkflowRun_error_none_iff store runID publishOk).mp h with
    ⟨r, hmem, hid, hst⟩
  have hmatch : cancelMatches runID r = true :=
    (cancelMatches_iff runID r).mpr ⟨hid, hst⟩
  refine ⟨{ r with status := RunStatus.canceled }, ?_, hid, rfl⟩
  have hstore : (cancelWorkflowRun store runID publishOk).store =
      store.map fun x =>
        if cancelMatches runID x then { x with status := RunStatus.canceled }
        else x := by
    unfold cancelWorkflowRun
    by_cases hz : (store.filter (cancelMatches runID)).length = 0 <;>
      simp [hz]
  rw [hstore]
  have : (if cancelMatches runID r then { r with status := RunStatus.canceled }
      else r) = { r with status := RunStatus.canceled } := by
    rw [if_pos hmatch]
  exact this ▸ List.mem_map_of_mem _ hmem

/-- C7: `CancelWorkflowRun(run_id)` returns an error exactly when no stored
run with that id is in `queued` or `running` (in particular when the run is
missing), and on success the matching queued-or-running run has been moved
to `canceled` in the store. -/
theorem CancelWorkflowRun_contract (store : List WorkflowRunRow)
    (runID : Nat) (publishOk : Bool) :
    ((cancelWorkflowRun store runID publishOk).error = none ↔
      ∃ r ∈ store, r.id = runID ∧
        (r.status = RunStatus.queued ∨ r.status = RunStatus.running)) ∧
    ((cancelWorkflowRun store runID publishOk).error = none →
      ∃ r ∈ (cancelWorkflowRun store runID publishOk).store,
        r.id = runID ∧ r.status = RunStatus.canceled) :=
  ⟨cancelWorkflowRun_error_none_iff store runID publishOk,
   cancelWorkflowRun_success_cancels store runID publishOk⟩

/-- C8 counterexample: cancelling a run that is already terminal
(`succeeded`) is not a silent idempotent no-op; the call reports an
error. -/
theorem cancel_terminal_run_reports_error :
    (cancelWorkflowRun [{ id := 1, status := RunStatus.succeeded }] 1 true).error
      ≠ none := by
  decide

/-- C8 amended: cancelling a run whose matching rows are all terminal
(`succeeded`, `failed` or `canceled`) returns the error
"workflow run not found or not in cancellable state" and leaves the store
unchanged (the run's state is indeed untouched, but the call is not an
ignored no-op). -/
theorem cancel_terminal_run_errors_store_unchanged
    (store : List WorkflowRunRow) (runID : Nat) (publishOk : Bool)
    (h : ∀ r ∈ store, r.id = runID →
      r.status = RunStatus.succeeded ∨ r.status = RunStatus.failed ∨
        r.status = RunStatus.canceled) :
    (cancelWorkflowRun store runID publishOk).error =
      some "workflow run not found or not in cancellable state" ∧
    (cancelWorkflowRun store runID publishOk).store = store := by
  have hnomatch : ∀ r ∈ store, cancelMatches runID r = false := by
    intro r hr
    by_cases hid : r.id = runID
    · rcases h r hr hid with hs | hs | hs <;>
        simp [cancelMatches, hid, hs, isCancellable]
    · simp [cancelMatches, hid]
  have hfilter : store.filter (cancelMatches runID) = [] :=
    List.filter_eq_nil_iff.mpr fun r hr => by simp [hnomatch r hr]
  have hmap : (store.map fun r =>
      if cancelMatches runID r then { r with status := RunStatus.canceled }
      else r) = store := by
    have : ∀ r ∈ store,
        (if cancelMatches runID r then { r with status := RunStatus.canceled }
          else r) = r := by
      intro r hr
      rw [if_neg (by simp [hnomatch r hr])]
    calc (store.map fun r =>
        if cancelMatches runID r then { r with status := RunStatus.canceled }
        else r) = store.map id := List.map_congr_left fun r hr => this r hr
      _ = store := List.map_id store
  constructor
  · unfold cancelWorkflowRun
    simp [hfilter]
  · unfold cancelWorkflowRun
    simp [hfilter, hmap]

/-- Closed instance of the amended C8 statement at a concrete terminal
store. -/
theorem cancel_terminal_run_errors_store_unchanged_witness :
    (cancelWorkflowRun [{ id := 7, status := RunStatus.failed }] 7 true).error =
      some "workflow run not found or not in cancellable state" ∧
    (cancelWorkflowRun [{ id := 7, status := RunStatus.failed }] 7 true).store =
      [{ id := 7, status := RunStatus.failed }] :=
  cancel_terminal_run_errors_store_unchanged
    [{ id := 7, status := RunStatus.failed }] 7 true
    (by intro r hr hid; simp only [List.mem_singleton] at hr; subst hr; right; left; rfl)

/-- C10: when a queued or running run is cancelled, the database update
succeeds and the call returns a nil error even if publishing the
cancellation signal fails (`publishOk = false`): the run is marked
`canceled` in the store while no cancel signal was emitted. -/
theorem cancelWorkflowRun_ignores_publish_failure
    (store : List WorkflowRunRow) (runID : Nat)
    (h : ∃ r ∈ store, r.id = runID ∧
      (r.status = RunStatus.queued ∨ r.status = RunStatus.running)) :
    (cancelWorkflowRun store runID false).error = none ∧
    (cancelWorkflowRun store runID false).signalPublished = false ∧
    ∃ r ∈ (cancelWorkflowRun store runID false).store,
      r.id = runID ∧ r.status = RunStatus.canceled := by
  have herr : (cancelWorkflowRun store runID false).error = none :=
    (cancelWorkflowRun_error_none_iff store runID false).mpr h
  refine ⟨herr, ?_, cancelWorkflowRun_success_cancels store runID false herr⟩
  unfold cancelWorkflowRun at herr ⊢
  by_cases hz : (store.filter (cancelMatches runID)).length = 0
  · simp [hz] at herr
  · simp [hz]

/-- Closed instance of C10 at a concrete running run. -/
theorem cancelWorkflowRun_ignores_publish_failure_witness :
    (cancelWorkflowRun [{ id := 2, status := RunStatus.running }] 2 false).error = none ∧
    (cancelWorkflowRun [{ id := 2, status := RunStatus.running }] 2 false).signalPublished = false ∧
    ∃ r ∈ (cancelWorkflowRun [{ id := 2, status := RunStatus.running }] 2 false).store,
      r.id = 2 ∧ r.status = RunStatus.canceled :=
  cancelWorkflowRun_ignores_publish_failure
    [{ id := 2, status := RunStatus.running }] 2
    ⟨{ id := 2, status := RunStatus.running }, by simp, rfl, Or.inr rfl⟩

/-- The columns of `step_run` that the worker reads or writes. -/
structure StepRunRow where
  id : Nat
  status : StepStatus
  workerID : Option String
  startedAt : Option Int
  endedAt : Option Int
  leaseDeadline : Option Int
  errMsg : String
  costCents : Int
  tokensPrompt : Int
  tokensCompletion : Int
  deriving Repr, DecidableEq

/-- Embeds `Worker.updateStepStatus`: computes `started_at` (stamped only
when the new status is `running`) and runs
`UPDATE step_run SET status = $1, worker_id = $2, started_at = $3 WHERE id = $4`.
The WHERE clause tests only the row id; no column other than the three in
the SET list is written. -/
def updateStepStatus (store : List StepRunRow) (stepID : Nat)
    (status : StepStatus) (workerID : String) (now : Int) : List StepRunRow :=
  let startedAt : Option Int :=
    if status = StepStatus.running then some now else none
  store.map fun r =>
    if r.id = stepID then
      { r with status := status, workerID := some workerID, startedAt := startedAt }
    else r

/-- The fields of a `TaskResult` message that the worker persists and
publishes. -/
structure TaskResult where
  taskID : Nat
  status : StepStatus
  errMsg : String
  costCents : Int
  tokensPrompt : Int
  tokensCompletion : Int
  deriving Repr, DecidableEq

/-- Embeds `Worker.updateStepWithResult`:
`UPDATE step_run SET status = $1, ended_at = $2, error = $3, cost_cents = $4,
tokens_prompt = $5, tokens_completion = $6 WHERE id = $7`.
The WHERE clause tests only the row id. -/
def updateStepWithResult (store : List StepRunRow) (result : TaskResult)
    (now : Int) : List StepRunRow :=
  store.map fun r =>
    if r.id = result.taskID then
      { r with status := result.status, endedAt := some now,
               errMsg := result.errMsg, costCents := result.costCents,
               tokensPrompt := result.tokensPrompt,
               tokensCompletion := result.tokensCompletion }
    else r

/-- A `step_run` row already `canceled`, used as concrete input below. -/
def canceledStepRow : StepRunRow :=
  { id := 1, status := StepStatus.canceled, workerID := none,
    startedAt := none, endedAt := none, leaseDeadline := none,
    errMsg := "", costCents := 0, tokensPrompt := 0, tokensCompletion := 0 }

/-- A fresh `ready` row, used as concrete input below. -/
def readyStepRow : StepRunRow :=
  { id := 1, status := StepStatus.ready, workerID := none,
    startedAt := none, endedAt := none, leaseDeadline := none,
    errMsg := "", costCents := 0, tokensPrompt := 0, tokensCompletion := 0 }

/-- Any row whose id matches is overwritten by `updateStepStatus`,
whatever its current status: it receives the new status, the updating
worker's id and the computed `started_at`, and keeps every other column
(in particular `lease_deadline`) unchanged. -/
theorem updateStepStatus_overwrites (store : List StepRunRow) (stepID : Nat)
    (status : StepStatus) (workerID : String) (now : Int) (r : StepRunRow)
    (hmem : r ∈ store) (hid : r.id = stepID) :
    { r with status := status, workerID := some workerID,
             startedAt := if status = StepStatus.running then some now else none }
      ∈ updateStepStatus store stepID status workerID now := by
  unfold updateStepStatus
  have : (if r.id = stepID then
      { r with status := status, workerID := some workerID,
               startedAt := if status = StepStatus.running then some now else none }
      else r) =
      { r with status := status, workerID := some workerID,
               startedAt := if status = StepStatus.running then some now else none } :=
    if_pos hid
  exact this ▸ List.mem_map_of_mem _ hmem

/-- C2 counterexample: delivering a duplicate for a step whose row is
already `canceled` is not an acked no-op: `updateStepStatus` has no status
guard, so the canceled row is rewritten to `running` with the worker's id
and a fresh `started_at`, and no `lease_deadline` is stamped. -/
theorem updateStepStatus_modifies_canceled_row :
    updateStepStatus [canceledStepRow] 1 StepStatus.running "w1" 5 ≠
      [canceledStepRow] ∧
    updateStepStatus [canceledStepRow] 1 StepStatus.running "w1" 5 =
      [{ canceledStepRow with status := StepStatus.running,
                              workerID := some "w1", startedAt := some 5 }] := by
  constructor
  · intro h
    have := congrArg (fun l => (l.map StepRunRow.status)) h
    simp [updateStepStatus, canceledStepRow] at this
  · simp [updateStepStatus, canceledStepRow]

/-- C2 amended: the worker's transition of a StepRun to `running` is an
unconditional UPDATE keyed only on the step id, not a compare-and-set: it
stamps `worker_id` and `started_at` on the matching row regardless of the
row's current status (`ready`, `running`, `canceled` or terminal alike),
stamps no `lease_deadline`, and the worker has no ack-duplicate-and-return
path (a failing update is NAKed). -/
theorem updateStepStatus_running_unconditional (store : List StepRunRow)
    (stepID : Nat) (workerID : String) (now : Int) (r : StepRunRow)
    (hmem : r ∈ store) (hid : r.id = stepID) :
    { r with status := StepStatus.running, workerID := some workerID,
             startedAt := some now }
      ∈ updateStepStatus store stepID StepStatus.running workerID now := by
  have h := updateStepStatus_overwrites store stepID StepStatus.running
    workerID now r hmem hid
  simpa using h

/-- Closed instance of the amended C2 statement: a canceled row is driven
to `running`. -/
theorem updateStepStatus_running_unconditional_witness :
    { canceledStepRow with status := StepStatus.running,
                           workerID := some "w1", startedAt := some (5 : Int) }
      ∈ updateStepStatus [canceledStepRow] 1 StepStatus.running "w1" 5 :=
  updateStepStatus_running_unconditional [canceledStepRow] 1 "w1" 5
    canceledStepRow (by simp) rfl

/-- Any row whose id matches the result's task id is overwritten by
`updateStepWithResult` with the result's status and payload columns,
whatever the row's current status. -/
theorem updateStepWithResult_overwrites (store : List StepRunRow)
    (result : TaskResult) (now : Int) (r : StepRunRow)
    (hmem : r ∈ store) (hid : r.id = result.taskID) :
    { r with status := result.status, endedAt := some now,
             errMsg := result.errMsg, costCents := result.costCents,
             tokensPrompt := result.tokensPrompt,
             tokensCompletion := result.tokensCompletion }
      ∈ updateStepWithResult store result now := by
  unfold updateStepWithResult
  have : (if r.id = result.taskID then
      { r with status := result.status, endedAt := some now,
               errMsg := result.errMsg, costCents := result.costCents,
               tokensPrompt := result.tokensPrompt,
               tokensCompletion := result.tokensCompletion }
      else r) =
      { r with status := result.status, endedAt := some now,
               errMsg := result.errMsg, costCents := result.costCents,
               tokensPrompt := result.tokensPrompt,
               tokensCompletion := result.tokensCompletion } :=
    if_pos hid
  exact this ▸ List.mem_map_of_mem _ hmem

/-- Rows written by `updateStepWithResult` carry the result's status and
error message; rows with a different id are untouched. -/
theorem updateStepWithResult_written_fields (store : List StepRunRow)
    (result : TaskResult) (now : Int) :
    ∀ r ∈ updateStepWithResult store result now,
      r.id = result.taskID → r.status = result.status ∧ r.errMsg = result.errMsg := by
  intro r hr hid
  unfold updateStepWithResult at hr
  rcases List.mem_map.mp hr with ⟨a, _, ha⟩
  by_cases h : a.id = result.taskID
  · rw [if_pos h] at ha
    rw [← ha]
    exact ⟨rfl, rfl⟩
  · rw [if_neg h] at ha
    exact absurd (ha ▸ hid) h

/-- C3 counterexample: the worker's result update has no status guard, so
a `succeeded` result overwrites a row that is already `canceled`: the
canceled row's status becomes `succeeded`. -/
theorem updateStepWithResult_overwrites_canceled_row :
    (updateStepWithResult [canceledStepRow]
        { taskID := 1, status := StepStatus.succeeded, errMsg := "",
          costCents := 0, tokensPrompt := 0, tokensCompletion := 0 } 9).map
      StepRunRow.status = [StepStatus.succeeded] := by
  simp [updateStepWithResult, canceledStepRow]

/-- C3 amended: the worker's result-update statement is keyed only on the
row id with no status condition, so it does not leave canceled rows
unchanged: a canceled row is overwritten with the result's status, and in
particular a `succeeded` result sets a `canceled` row to `succeeded`. -/
theorem updateStepWithResult_no_cancel_guard (store : List StepRunRow)
    (result : TaskResult) (now : Int) (r : StepRunRow)
    (hmem : r ∈ store) (hid : r.id = result.taskID)
    (hcanceled : r.status = StepStatus.canceled)
    (hsucceeded : result.status = StepStatus.succeeded) :
    ∃ s ∈ updateStepWithResult store result now,
      s.id = result.taskID ∧ s.status = StepStatus.succeeded := by
  refine ⟨{ r with status := result.status, endedAt := some now,
                   errMsg := result.errMsg, costCents := result.costCents,
                   tokensPrompt := result.tokensPrompt,
                   tokensCompletion := result.tokensCompletion },
    updateStepWithResult_overwrites store result now r hmem hid, hid, hsucceeded⟩

/-- Closed instance of the amended C3 statement at a concrete canceled
row. -/
theorem updateStepWithResult_no_cancel_guard_witness :
    ∃ s ∈ updateStepWithResult [canceledStepRow]
        { taskID := 1, status := StepStatus.succeeded, errMsg := "",
          costCents := 0, tokensPrompt := 0, tokensCompletion := 0 } 9,
      s.id = 1 ∧ s.status = StepStatus.succeeded :=
  updateStepWithResult_no_cancel_guard [canceledStepRow]
    { taskID := 1, status := StepStatus.succeeded, errMsg := "",
      costCents := 0, tokensPrompt := 0, tokensCompletion := 0 } 9
    canceledStepRow (by simp) rfl rfl rfl

/-- C4 counterexample: after the worker moves a fresh `ready` row to
`running`, the row is observed in status `running` with
`lease_deadline = NULL`: the code never sets a lease deadline, so the
invariant "lease_deadline is set and lies in the future" fails. -/
theorem running_row_without_lease_deadline :
    (updateStepStatus [readyStepRow] 1 StepStatus.running "w1" 5) =
      [{ readyStepRow with status := StepStatus.running,
                           workerID := some "w1", startedAt := some 5 }] ∧
    ({ readyStepRow with status := StepStatus.running,
                         workerID := some "w1",
                         startedAt := some (5 : Int) }).leaseDeadline = none := by
  constructor
  · simp [updateStepStatus, readyStepRow]
  · rfl

/-- C4 amended: a StepRun placed in `running` by `updateStepStatus` has
exactly one `worker_id` (the updating worker's) and a stamped
`started_at`, but its `lease_deadline` is never written: it keeps its
prior value, which is `none` unless something else set it. -/
theorem updateStepStatus_running_no_lease (store : List StepRunRow)
    (stepID : Nat) (workerID : String) (now : Int) (r : StepRunRow)
    (hmem : r ∈ store) (hid : r.id = stepID) :
    ∃ s ∈ updateStepStatus store stepID StepStatus.running workerID now,
      s.status = StepStatus.running ∧ s.workerID = some workerID ∧
      s.startedAt = some now ∧ s.leaseDeadline = r.leaseDeadline := by
  have h := updateStepStatus_overwrites store stepID StepStatus.running
    workerID now r hmem hid
  rw [if_pos rfl] at h
  exact ⟨{ r with status := StepStatus.running, workerID := some workerID,
                  startedAt := some now }, h, rfl, rfl, rfl, rfl⟩

/-- Closed instance of the amended C4 statement at a concrete ready
row. -/
theorem updateStepStatus_running_no_lease_witness :
    ∃ s ∈ updateStepStatus [readyStepRow] 1 StepStatus.running "w1" 5,
      s.status = StepStatus.running ∧ s.workerID = some "w1" ∧
      s.startedAt = some (5 : Int) ∧ s.leaseDeadline = readyStepRow.leaseDeadline :=
  updateStepStatus_running_no_lease [readyStepRow] 1 "w1" 5 readyStepRow
    (by simp) rfl

/-- Node types are string tags (`LLM`, `Tool`, `Function`, ...). -/
abbrev NodeType := String

/-- The node policy fields the worker reads. `maxRetries = 0` means the
policy left the field unset. -/
structure NodePolicy where
  maxRetries : Nat
  deriving Repr, DecidableEq

/-- The node fields the worker reads. -/
structure Node where
  type : NodeType
  policy : NodePolicy
  deriving Repr, DecidableEq

/-- The fields of a Task message the worker reads. Times are integer
nanosecond wall-clock values. -/
structure Task where
  id : Nat
  node : Node
  attempt : Nat
  deadlineAt : Int
  deriving Repr, DecidableEq

/-- The `maxRetries` default from `executeTask`: the policy value, or 3
when the policy value is zero (unset). -/
def effectiveMaxRetries (policyMaxRetries : Nat) : Nat :=
  if policyMaxRetries = 0 then 3 else policyMaxRetries

/-- The outcome `executeTask` returns to `handleTask` (a Go
`(*TaskResult, error)` pair with the error still a value). -/
inductive ExecResult where
  | ok (r : TaskResult)
  | noExecutor (t : NodeType)
  | ctxDone (msg : String)
  | exhausted (maxRetries : Nat) (lastErr : String)
  deriving Repr, DecidableEq

/-- The Go error string of a non-nil `executeTask` error. -/
def execErrMsg : ExecResult → Option String
  | ExecResult.ok _ => none
  | ExecResult.noExecutor t => some ("no executor for node type " ++ t)
  | ExecResult.ctxDone msg => some msg
  | ExecResult.exhausted n lastErr =>
      some ("task failed after " ++ toString n ++ " attempts: " ++ lastErr)

/-- Oracle for the effectful parts of the retry loop: the outcome of the
executor call on each attempt number, and whether the task context becomes
done during the backoff sleep that follows a failed attempt (the `select`
on `ctx.Done()` versus `time.After(backoff)`). -/
structure ExecEnv where
  execOutcome : Nat → Except String TaskResult
  ctxDoneDuringBackoff : Nat → Bool
  ctxErrMsg : String

/-- Trace of one `executeTask` call: its returned value, the attempt
numbers on which the executor was invoked, in order, and the completed
backoff sleeps in seconds, in order. -/
structure RetryTrace where
  result : ExecResult
  attempts : List Nat
  sleeps : List Nat
  deriving Repr

/-- The retry loop body of `executeTask`, with `remaining` the number of
loop iterations left (`maxRetries - attempt + 1` at every call): run the
executor; on success return the result; otherwise, if this was the last
attempt, return the after-N-attempts error; otherwise sleep
`attempt * attempt` seconds unless the context fires first, in which case
return the context's error without a further attempt. -/
def retryGo (env : ExecEnv) (maxRetries : Nat) :
    Nat → Nat → RetryTrace
  | 0, _ =>
      { result := ExecResult.exhausted maxRetries "", attempts := [], sleeps := [] }
  | remaining + 1, attempt =>
    match env.execOutcome attempt with
    | Except.ok r =>
        { result := ExecResult.ok r, attempts := [attempt], sleeps := [] }
    | Except.error msg =>
      if remaining = 0 then
        { result := ExecResult.exhausted maxRetries msg, attempts := [attempt],
          sleeps := [] }
      else if env.ctxDoneDuringBackoff attempt then
        { result := ExecResult.ctxDone env.ctxErrMsg, attempts := [attempt],
          sleeps := [] }
      else
        let t := retryGo env maxRetries remaining (attempt + 1)
        { result := t.result, attempts := attempt :: t.attempts,
          sleeps := attempt * attempt :: t.sleeps }

/-- Embeds `Worker.executeTask`: look up the executor for the node type
(no executor means an immediate error with no attempt); otherwise run the
retry loop from attempt 1 with `effectiveMaxRetries` iterations. -/
def executeTask (executors : NodeType → Bool) (nodeType : NodeType)
    (policyMaxRetries : Nat) (env : ExecEnv) : RetryTrace :=
  if executors nodeType then
    retryGo env (effectiveMaxRetries policyMaxRetries)
      (effectiveMaxRetries policyMaxRetries) 1
  else
    { result := ExecResult.noExecutor nodeType, attempts := [], sleeps := [] }

theorem retryGo_spec (env : ExecEnv) (k : Nat) :
    ∀ remaining attempt, 1 ≤ remaining → attempt + remaining = k + 1 →
    ∃ n, attempt ≤ n ∧ n ≤ k ∧
      (retryGo env k remaining attempt).attempts =
        List.range' attempt (n + 1 - attempt) ∧
      (retryGo env k remaining attempt).sleeps =
        (List.range' attempt (n - attempt)).map (fun i => i * i) ∧
      ((∃ r, env.execOutcome n = Except.ok r ∧
          (retryGo env k remaining attempt).result = ExecResult.ok r) ∨
       (n < k ∧ env.ctxDoneDuringBackoff n = true ∧
          (retryGo env k remaining attempt).result =
            ExecResult.ctxDone env.ctxErrMsg) ∨
       (n = k ∧ ∃ m, env.execOutcome n = Except.error m ∧
          (retryGo env k remaining attempt).result =
            ExecResult.exhausted k m)) := by
  intro remaining
  induction remaining with
  | zero => intro attempt h1 _; omega
  | succ rem ih =>
    intro attempt _ hsum
    have hak : attempt ≤ k := by omega
    cases hout : env.execOutcome attempt with
    | ok r =>
      refine ⟨attempt, Nat.le_refl _, hak, ?_, ?_, Or.inl ⟨r, hout, ?_⟩⟩ <;>
        simp [retryGo, hout]
    | error msg =>
      by_cases hrem : rem = 0
      · subst hrem
        have hattk : attempt = k := by omega
        subst hattk
        refine ⟨attempt, Nat.le_refl _, hak, ?_, ?_,
          Or.inr (Or.inr ⟨rfl, msg, hout, ?_⟩)⟩ <;>
          simp [retryGo, hout]
      · by_cases hctx : env.ctxDoneDuringBackoff attempt = true
        · have hltk : attempt < k := by omega
          refine ⟨attempt, Nat.le_refl _, hak, ?_, ?_,
            Or.inr (Or.inl ⟨hltk, hctx, ?_⟩)⟩ <;>
            simp [retryGo, hout, hrem, hctx]
        · have hctxf : env.ctxDoneDuringBackoff attempt = false := by
            simpa using hctx
          rcases ih (attempt + 1) (by omega) (by omega) with
            ⟨n, hn1, hn2, hatt, hsl, hres⟩
          refine ⟨n, by omega, hn2, ?_, ?_, ?_⟩
          · have hunf : (retryGo env k (rem + 1) attempt).attempts =
                attempt :: (retryGo env k rem (attempt + 1)).attempts := by
              simp [retryGo, hout, hrem, hctxf]
            rw [hunf, hatt]
            have hcount : n + 1 - attempt = (n + 1 - (attempt + 1)) + 1 := by
              omega
            rw [hcount, List.range'_succ]
          · have hunf : (retryGo env k (rem + 1) attempt).sleeps =
                attempt * attempt :: (retryGo env k rem (attempt + 1)).sleeps := by
              simp [retryGo, hout, hrem, hctxf]
            rw [hunf, hsl]
            have hcount : n - attempt = (n - (attempt + 1)) + 1 := by omega
            rw [hcount, List.range'_succ, List.map_cons]
          · have hunf : (retryGo env k (rem + 1) attempt).result =
                (retryGo env k rem (attempt + 1)).result := by
              simp [retryGo, hout, hrem, hctxf]
            rw [hunf]
            exact hres

/-- C5: with an executor registered, `executeTask` runs attempts
`1, 2, ..., n` for some `n` between 1 and the effective max retries (the
node policy's value, defaulting to 3 when unset); between consecutive
failed attempts it completes a backoff sleep of `attempt * attempt`
seconds (quadratic backoff on a one-second base); and the run ends in one
of three ways: attempt `n` succeeded; or the context became done during
the backoff after failed attempt `n < max`, in which case the loop breaks
with the context's error and starts no further attempt; or `n = max` and
every attempt failed, yielding the after-N-attempts error. -/
theorem executeTask_retry_semantics (executors : NodeType → Bool)
    (nodeType : NodeType) (policyMaxRetries : Nat) (env : ExecEnv)
    (hex : executors nodeType = true) :
    ∃ n, 1 ≤ n ∧ n ≤ effectiveMaxRetries policyMaxRetries ∧
      (effectiveMaxRetries policyMaxRetries =
        if policyMaxRetries = 0 then 3 else policyMaxRetries) ∧
      (executeTask executors nodeType policyMaxRetries env).attempts =
        List.range' 1 n ∧
      (executeTask executors nodeType policyMaxRetries env).sleeps =
        (List.range' 1 (n - 1)).map (fun i => i * i) ∧
      ((∃ r, env.execOutcome n = Except.ok r ∧
          (executeTask executors nodeType policyMaxRetries env).result =
            ExecResult.ok r) ∨
       (n < effectiveMaxRetries policyMaxRetries ∧
          env.ctxDoneDuringBackoff n = true ∧
          (executeTask executors nodeType policyMaxRetries env).result =
            ExecResult.ctxDone env.ctxErrMsg) ∨
       (n = effectiveMaxRetries policyMaxRetries ∧
          ∃ m, env.execOutcome n = Except.error m ∧
            (executeTask executors nodeType policyMaxRetries env).result =
              ExecResult.exhausted (effectiveMaxRetries policyMaxRetries) m)) := by
  have hk : 1 ≤ effectiveMaxRetries policyMaxRetries := by
    unfold effectiveMaxRetries
    by_cases h : policyMaxRetries = 0 <;> simp [h] <;> omega
  have hunf : executeTask executors nodeType policyMaxRetries env =
      retryGo env (effectiveMaxRetries policyMaxRetries)
        (effectiveMaxRetries policyMaxRetries) 1 := by
    unfold executeTask
    rw [if_pos hex]
  rcases retryGo_spec env (effectiveMaxRetries policyMaxRetries)
      (effectiveMaxRetries policyMaxRetries) 1 hk (by omega) with
    ⟨n, hn1, hn2, hatt, hsl, hres⟩
  refine ⟨n, hn1, hn2, rfl, ?_, ?_, ?_⟩
  · rw [hunf, hatt]
    simp
  · rw [hunf, hsl]
  · rw [hunf]
    exact hres

/-- Concrete environment for the C5 witness: attempts 1 and 2 fail,
attempt 3 succeeds, the context never fires. -/
def witnessResult : TaskResult :=
  { taskID := 4, status := StepStatus.succeeded, errMsg := "",
    costCents := 2, tokensPrompt := 10, tokensCompletion := 20 }

def witnessEnv : ExecEnv :=
  { execOutcome := fun i =>
      if i < 3 then Except.error ("boom " ++ toString i)
      else Except.ok witnessResult
    ctxDoneDuringBackoff := fun _ => false
    ctxErrMsg := "context deadline exceeded" }

def witnessExecutors : NodeType → Bool := fun t => t = "Function"

/-- Closed instance of the C5 statement: an unset policy runs up to 3
attempts with sleeps of 1 and 4 seconds before succeeding on attempt 3. -/
theorem executeTask_retry_semantics_witness :
    ∃ n, 1 ≤ n ∧ n ≤ effectiveMaxRetries 0 ∧
      (effectiveMaxRetries 0 = if (0 : Nat) = 0 then 3 else 0) ∧
      (executeTask witnessExecutors "Function" 0 witnessEnv).attempts =
        List.range' 1 n ∧
      (executeTask witnessExecutors "Function" 0 witnessEnv).sleeps =
        (List.range' 1 (n - 1)).map (fun i => i * i) ∧
      ((∃ r, witnessEnv.execOutcome n = Except.ok r ∧
          (executeTask witnessExecutors "Function" 0 witnessEnv).result =
            ExecResult.ok r) ∨
       (n < effectiveMaxRetries 0 ∧
          witnessEnv.ctxDoneDuringBackoff n = true ∧
          (executeTask witnessExecutors "Function" 0 witnessEnv).result =
            ExecResult.ctxDone witnessEnv.ctxErrMsg) ∨
       (n = effectiveMaxRetries 0 ∧
          ∃ m, witnessEnv.execOutcome n = Except.error m ∧
            (executeTask witnessExecutors "Function" 0 witnessEnv).result =
              ExecResult.exhausted (effectiveMaxRetries 0) m)) :=
  executeTask_retry_semantics witnessExecutors "Function" 0 witnessEnv
    (by simp [witnessExecutors])

/-- Embeds the per-task context derivation of `handleTask`:
`context.WithTimeout(context.Background(), time.Until(task.DeadlineAt))`.
`time.Until(d)` is `d - now`, so the absolute deadline of the derived
context is `now + (deadlineAt - now)`. -/
def taskCtxDeadline (now deadlineAt : Int) : Int :=
  now + (deadlineAt - now)

/-- Modelled from the spec words of C6, for comparison with the source:
the claimed deadline `min(task.deadline_at, now + configured_max)`. -/
def specTaskCtxDeadline (now deadlineAt configuredMax : Int) : Int :=
  min deadlineAt (now + configuredMax)

/-- C6 counterexample: with `now = 0`, `deadline_at = 100` and a
configured maximum task duration of 10, the claimed deadline is 10 but
the code's context deadline is 100: the source applies no configured
maximum. -/
theorem taskCtxDeadline_not_min :
    taskCtxDeadline 0 100 ≠ specTaskCtxDeadline 0 100 10 := by
  decide

/-- C6 amended: the worker derives the per-task context with deadline
equal to `task.deadline_at` itself (timeout `time.Until(task.DeadlineAt)`
from the current instant); no configured maximum task duration exists in
the code or bounds the deadline. -/
theorem taskCtxDeadline_eq_deadlineAt (now deadlineAt : Int) :
    taskCtxDeadline now deadlineAt = deadlineAt := by
  unfold taskCtxDeadline
  ring

/-- Success flags for the fallible effects of one `handleTask` call:
JSON decode of the message, the step-to-running DB exec, the
result-row DB exec, and the JetStream publish of the result. -/
structure Fallible where
  decodeOk : Bool
  statusDbOk : Bool
  resultDbOk : Bool
  publishOk : Bool
  deriving Repr, DecidableEq

/-- Final disposition of the delivered message. -/
inductive AckAction where
  | ack
  | nak
  deriving Repr, DecidableEq

/-- Everything one `handleTask` call reads from its surroundings. -/
structure WorkerEnv where
  executors : NodeType → Bool
  env : ExecEnv
  fall : Fallible
  workerID : String
  nowStart : Int
  nowEnd : Int

/-- Observable outcome of one `handleTask` call: the step store after the
call, the TaskResult messages published to `agentflow.results`, and the
ack disposition of the task message. -/
structure HandleOutcome where
  store : List StepRunRow
  published : List TaskResult
  ack : AckAction

/-- The TaskResult `handleTask` carries forward: the executor's result on
success, or a fresh `failed` result carrying the error's string when
`executeTask` returned a non-nil error. -/
def resultOfExec (taskID : Nat) (e : ExecResult) : TaskResult :=
  match e with
  | ExecResult.ok r => r
  | e =>
      { taskID := taskID, status := StepStatus.failed,
        errMsg := (execErrMsg e).getD "", costCents := 0,
        tokensPrompt := 0, tokensCompletion := 0 }

/-- Embeds `Worker.handleTask`: NAK on decode failure; move the step row
to `running` (NAK if that DB write fails); execute; persist the result
row (NAK on failure); publish the result (NAK on failure); only then
Ack. -/
def handleTask (we : WorkerEnv) (store : List StepRunRow) (task : Task) :
    HandleOutcome :=
  if we.fall.decodeOk = false then
    { store := store, published := [], ack := AckAction.nak }
  else if we.fall.statusDbOk = false then
    { store := store, published := [], ack := AckAction.nak }
  else
    let store1 := updateStepStatus store task.id StepStatus.running
      we.workerID we.nowStart
    let tr := executeTask we.executors task.node.type
      task.node.policy.maxRetries we.env
    let result := resultOfExec task.id tr.result
    if we.fall.resultDbOk = false then
      { store := store1, published := [], ack := AckAction.nak }
    else
      let store2 := updateStepWithResult store1 result we.nowEnd
      if we.fall.publishOk = false then
        { store := store2, published := [], ack := AckAction.nak }
      else
        { store := store2, published := [result], ack := AckAction.ack }

/-- C1: the worker Acks the delivered message exactly when the decode,
the running-status DB write, the result-row DB write and the results
publish all succeeded; if the result DB write or the publish (or any
earlier step) fails, the message is NAKed; and on Ack the result has both
been written to the step store and published. -/
theorem handleTask_ack_discipline (we : WorkerEnv) (store : List StepRunRow)
    (task : Task) :
    ((handleTask we store task).ack = AckAction.ack ↔
      we.fall.decodeOk = true ∧ we.fall.statusDbOk = true ∧
      we.fall.resultDbOk = true ∧ we.fall.publishOk = true) ∧
    ((handleTask we store task).ack = AckAction.ack →
      (handleTask we store task).published =
        [resultOfExec task.id
          (executeTask we.executors task.node.type
            task.node.policy.maxRetries we.env).result] ∧
      (handleTask we store task).store =
        updateStepWithResult
          (updateStepStatus store task.id StepStatus.running we.workerID
            we.nowStart)
          (resultOfExec task.id
            (executeTask we.executors task.node.type
              task.node.policy.maxRetries we.env).result)
          we.nowEnd) := by
  cases hd : we.fall.decodeOk <;> cases hs : we.fall.statusDbOk <;>
    cases hr : we.fall.resultDbOk <;> cases hp : we.fall.publishOk <;>
    simp [handleTask, hd, hs, hr, hp]

/-- C9: for a delivered task whose node type has no registered executor,
the executor dispatch makes no execution attempt, and (with the fallible
effects succeeding) the worker persists a `failed` result carrying the
no-executor error to the step row, publishes that result, and Acks. -/
theorem handleTask_no_executor (we : WorkerEnv) (store : List StepRunRow)
    (task : Task)
    (hex : we.executors task.node.type = false)
    (hd : we.fall.decodeOk = true) (hs : we.fall.statusDbOk = true)
    (hr : we.fall.resultDbOk = true) (hp : we.fall.publishOk = true) :
    (executeTask we.executors task.node.type task.node.policy.maxRetries
      we.env).attempts = [] ∧
    (handleTask we store task).published =
      [{ taskID := task.id, status := StepStatus.failed,
         errMsg := "no executor for node type " ++ task.node.type,
         costCents := 0, tokensPrompt := 0, tokensCompletion := 0 }] ∧
    (∀ r ∈ (handleTask we store task).store, r.id = task.id →
      r.status = StepStatus.failed ∧
      r.errMsg = "no executor for node type " ++ task.node.type) ∧
    (handleTask we store task).ack = AckAction.ack := by
  have hexec : executeTask we.executors task.node.type
      task.node.policy.maxRetries we.env =
      { result := ExecResult.noExecutor task.node.type, attempts := [],
        sleeps := [] } := by
    unfold executeTask
    rw [hex]
    simp
  have hres : resultOfExec task.id
      (executeTask we.executors task.node.type task.node.policy.maxRetries
        we.env).result =
      { taskID := task.id, status := StepStatus.failed,
        errMsg := "no executor for node type " ++ task.node.type,
        costCents := 0, tokensPrompt := 0, tokensCompletion := 0 } := by
    rw [hexec]
    simp [resultOfExec, execErrMsg]
  refine ⟨by rw [hexec], ?_, ?_, ?_⟩
  · simp [handleTask, hd, hs, hr, hp, hres]
  · intro r hmem hid
    have hstore : (handleTask we store task).store =
        updateStepWithResult
          (updateStepStatus store task.id StepStatus.running we.workerID
            we.nowStart)
          (resultOfExec task.id
            (executeTask we.executors task.node.type
              task.node.policy.maxRetries we.env).result)
          we.nowEnd := by
      simp [handleTask, hd, hs, hr, hp]
    rw [hstore] at hmem
    have hid2 : r.id = (resultOfExec task.id
        (executeTask we.executors task.node.type
          task.node.policy.maxRetries we.env).result).taskID := by
      rw [hres]
      exact hid
    have h := updateStepWithResult_written_fields
      (updateStepStatus store task.id StepStatus.running we.workerID
        we.nowStart)
      (resultOfExec task.id
        (executeTask we.executors task.node.type
          task.node.policy.maxRetries we.env).result)
      we.nowEnd r hmem hid2
    rw [hres] at h
    exact h
  · simp [handleTask, hd, hs, hr, hp]

/-- Concrete no-executor input for the C9 witness: only `Function` has an
executor, the task's node type is `Alien`. -/
def alienTask : Task :=
  { id := 1, node := { type := "Alien", policy := { maxRetries := 0 } },
    attempt := 1, deadlineAt := 50 }

def witnessWorkerEnv : WorkerEnv :=
  { executors := witnessExecutors, env := witnessEnv,
    fall := { decodeOk := true, statusDbOk := true, resultDbOk := true,
              publishOk := true },
    workerID := "w1", nowStart := 5, nowEnd := 9 }

/-- Closed instance of the C9 statement at a concrete unregistered node
type. -/
theorem handleTask_no_executor_witness :
    (executeTask witnessWorkerEnv.executors alienTask.node.type
      alienTask.node.policy.maxRetries witnessWorkerEnv.env).attempts = [] ∧
    (handleTask witnessWorkerEnv [readyStepRow] alienTask).published =
      [{ taskID := alienTask.id, status := StepStatus.failed,
         errMsg := "no executor for node type " ++ alienTask.node.type,
         costCents := 0, tokensPrompt := 0, tokensCompletion := 0 }] ∧
    (∀ r ∈ (handleTask witnessWorkerEnv [readyStepRow] alienTask).store,
      r.id = alienTask.id →
      r.status = StepStatus.failed ∧
      r.errMsg = "no executor for node type " ++ alienTask.node.type) ∧
    (handleTask witnessWorkerEnv [readyStepRow] alienTask).ack =
      AckAction.ack :=
  handleTask_no_executor witnessWorkerEnv [readyStepRow] alienTask
    (by simp [witnessWorkerEnv, witnessExecutors, alienTask]) rfl rfl rfl rfl

end AgentFlow
